import Mathlib

/-!
Verification of the hyperion-rebalancer repository (src/index.ts).

The TypeScript source is shallowly embedded here.  JS `bigint` amounts and
integer price ticks are modelled as `ℤ`; the external Hyperion SDK services
(the pool-ratio estimator, the swap quoter and the `FeeTierStep` table) are
opaque collaborators of the program and are therefore modelled as function
parameters that theorems quantify over.  The transactional effects of the
orchestrator (`rebalance`) are modelled as an explicit event trace: each
submitted transaction, log-skip and planner invocation is recorded as an
`Event`, and thrown JS exceptions are modelled by `Except.error`.
-/

namespace HyperionRebalancer

/-- `TokenInfo` record from src/index.ts (lines 51-57). -/
structure TokenInfo where
  assetType : String
  faType : Option String
  coinType : Option String
  decimals : ℕ
  symbol : String
  deriving DecidableEq, Repr

/-- `IndexedPool` record from src/index.ts (lines 59-68); `currentTick` and
`feeTier` are the numeric fields the program reads. -/
structure IndexedPool where
  currentTick : ℤ
  feeTier : ℕ
  token1 : String
  token2 : String
  token1Info : TokenInfo
  token2Info : TokenInfo
  deriving DecidableEq, Repr

/-- The nested `position` object of `IndexedPosition` (tickLower/tickUpper). -/
structure PositionRange where
  tickLower : ℤ
  tickUpper : ℤ
  deriving DecidableEq, Repr

/-- `IndexedPosition` record from src/index.ts (lines 70-79); `pool` is a list
of pool snapshots of which the program only ever reads element 0. -/
structure IndexedPosition where
  objectId : String
  poolId : String
  currentAmount : ℤ
  position : PositionRange
  pool : List IndexedPool
  deriving DecidableEq, Repr

/-- Result of the external swap quoter `sdk.Swap.estFromAmount`. -/
structure Quote where
  amountIn : ℤ
  amountOut : ℤ
  path : List String
  deriving DecidableEq, Repr

/-- The transient swap plan recorded by `planLiquidity` (src/index.ts 163-169). -/
structure SwapPlan where
  amountIn : ℤ
  expectedOut : ℤ
  path : List String
  deriving DecidableEq, Repr

/-- The value returned by `planLiquidity` (src/index.ts 232-236). -/
structure Plan where
  swapPlan : Option SwapPlan
  depositA : ℤ
  depositB : ℤ
  deriving DecidableEq, Repr

/-- The parameter record passed to `planLiquidity` (src/index.ts 148-155). -/
structure PlanParams where
  currencyA : String
  currencyB : String
  feeTierIndex : ℕ
  tickLower : ℤ
  tickUpper : ℤ
  currentTick : ℤ
  deriving DecidableEq, Repr

/-- The external SDK services used by the planner, modelled as opaque total
functions: `estCurrencyBAmountFromA`/`estCurrencyAAmountFromB` return the
`[1]` element of the SDK estimate (as a bigint), `estFromAmount` is the swap
quoter `(from, to, safeMode, amount)`. -/
structure Services where
  estCurrencyBAmountFromA : PlanParams → ℤ → ℤ
  estCurrencyAAmountFromB : PlanParams → ℤ → ℤ
  estFromAmount : String → String → Bool → ℤ → Quote

/-- Configuration surface read from the environment: the SDK `FeeTierStep`
table (an index possibly having no entry), `TICK_HALF_WIDTH`, `SWAP_SAFE_MODE`. -/
structure Config where
  feeTierStep : ℕ → Option ℤ
  tickHalfWidth : ℤ
  swapSafeMode : Bool

/-- Inner fallback of `normalizeAddress`: a present non-empty `faType`,
otherwise `assetType` (src/index.ts 92-93). -/
def faOrAsset (i : TokenInfo) : String :=
  match i.faType with
  | some f => if !f.isEmpty then f else i.assetType
  | none => i.assetType

/-- `normalizeAddress` from src/index.ts (lines 89-94): a present non-empty
`coinType` wins, then a present non-empty `faType`, then `assetType`; a
missing info record yields the fallback. -/
def normalizeAddress (info : Option TokenInfo) (fallback : String) : String :=
  match info with
  | none => fallback
  | some i =>
    match i.coinType with
    | some c => if !c.isEmpty then c else faOrAsset i
    | none => faOrAsset i

/-- `computeTickRange` from src/index.ts (lines 96-109).  `FeeTierStep[i] ?? 1`
is `(feeTierStep i).getD 1`; `Math.floor(currentTick / spacing) * spacing` on
integers with positive spacing is floor division, i.e. `Int.fdiv`. -/
def computeTickRange (feeTierStep : ℕ → Option ℤ) (currentTick : ℤ)
    (feeTierIndex : ℕ) (halfWidth : ℤ) : ℤ × ℤ :=
  let spacing := (feeTierStep feeTierIndex).getD 1
  let rounded := currentTick.fdiv spacing * spacing
  let lower := rounded - halfWidth * spacing
  let upper := rounded + halfWidth * spacing
  if lower = upper then (rounded - spacing, rounded + spacing)
  else (lower, upper)

/-- `isOutOfRange` from src/index.ts (lines 137-143). -/
def isOutOfRange (pos : IndexedPosition) (pool : IndexedPool) : Bool :=
  decide (pool.currentTick ≤ pos.position.tickLower) ||
    decide (pos.position.tickUpper ≤ pool.currentTick)

/-- The common tail of `planLiquidity` (src/index.ts 205-236): re-estimate
`depositB` from the working A amount and, if it exceeds the working B amount,
re-estimate `depositA` from the working B amount instead and cap `depositB`. -/
def capDeposit (svc : Services) (workingA workingB : ℤ) (params : PlanParams)
    (swapPlan : Option SwapPlan) : Plan :=
  let depositB := svc.estCurrencyBAmountFromA params workingA
  if workingB < depositB then
    { swapPlan := swapPlan
      depositA := svc.estCurrencyAAmountFromB params workingB
      depositB := workingB }
  else
    { swapPlan := swapPlan, depositA := workingA, depositB := depositB }

/-- `planLiquidity` from src/index.ts (lines 145-237).  The thrown
insufficient-balance exception is `Except.error`. -/
def planLiquidity (svc : Services) (availableA availableB : ℤ)
    (params : PlanParams) (allowSwap : Bool) (safeMode : Bool) :
    Except String Plan :=
  let workingA := availableA
  let workingB := availableB
  let requiredB := svc.estCurrencyBAmountFromA params workingA
  if allowSwap ∧ workingB < requiredB then
    let shortfall := requiredB - workingB
    let q := svc.estFromAmount params.currencyA params.currencyB safeMode shortfall
    if workingA ≤ q.amountIn then
      .error "Insufficient currencyA balance to cover swap for rebalancing"
    else
      .ok (capDeposit svc (workingA - q.amountIn) (workingB + q.amountOut) params
        (some { amountIn := q.amountIn, expectedOut := q.amountOut, path := q.path }))
  else
    .ok (capDeposit svc workingA workingB params none)

/-- Observable actions of the orchestrator: submitted transactions, planner
invocations and logged skips. -/
inductive Event where
  | removeLiquidity (amountA amountB deltaLiquidity : ℤ)
  | planCall (availableA availableB : ℤ) (allowSwap : Bool)
  | swapTx (amountIn expectedOut : ℤ)
  | addLiquidity (amountA amountB tickLower tickUpper : ℤ)
  | skipDeposit (amountA amountB : ℤ)
  | warnNoPool
  deriving DecidableEq, Repr

/-- The remove-liquidity step of `rebalance` (src/index.ts 265-280): a
transaction is submitted only when the position has liquidity and a non-zero
withdrawable amount. -/
def removeEventsOf (availableA availableB deltaLiquidity : ℤ) : List Event :=
  if 0 < deltaLiquidity ∧ (0 < availableA ∨ 0 < availableB) then
    [Event.removeLiquidity availableA availableB deltaLiquidity]
  else []

/-- The `baseParams` record built by `rebalance` (src/index.ts 246-289): the
target range from `computeTickRange` and the normalized currency addresses. -/
def baseParams (cfg : Config) (pool : IndexedPool) : PlanParams :=
  let r := computeTickRange cfg.feeTierStep pool.currentTick pool.feeTier cfg.tickHalfWidth
  { currencyA := normalizeAddress (some pool.token1Info) pool.token1
    currencyB := normalizeAddress (some pool.token2Info) pool.token2
    feeTierIndex := pool.feeTier
    tickLower := r.1
    tickUpper := r.2
    currentTick := pool.currentTick }

/-- The final deposit step of `rebalance` (src/index.ts 316-338): a zero
amount on either side is a logged skip, otherwise the add-liquidity
transaction is submitted. -/
def finishDeposit (events : List Event) (plan : Plan) (params : PlanParams) :
    List Event :=
  if plan.depositA = 0 ∨ plan.depositB = 0 then
    events ++ [Event.skipDeposit plan.depositA plan.depositB]
  else
    events ++ [Event.addLiquidity plan.depositA plan.depositB
      params.tickLower params.tickUpper]

/-- `rebalance` from src/index.ts (lines 239-339).  The withdrawable amounts
fetched from the venue are the parameters `availableA availableB`; the trace
of submitted transactions and planner calls is returned, a thrown planner
exception propagates as `Except.error`. -/
def rebalance (cfg : Config) (svc : Services) (availableA availableB : ℤ)
    (pos : IndexedPosition) : Except String (List Event) :=
  match pos.pool.head? with
  | none => .ok [Event.warnNoPool]
  | some pool =>
    let params := baseParams cfg pool
    match planLiquidity svc availableA availableB params true cfg.swapSafeMode with
    | .error e => .error e
    | .ok initialPlan =>
      let preEvents := removeEventsOf availableA availableB pos.currentAmount ++
        [Event.planCall availableA availableB true]
      match initialPlan.swapPlan with
      | none => .ok (finishDeposit preEvents initialPlan params)
      | some sp =>
        let postSwapA := availableA - sp.amountIn
        let postSwapB := availableB + sp.expectedOut
        match planLiquidity svc postSwapA postSwapB params false cfg.swapSafeMode with
        | .error e => .error e
        | .ok plan =>
          .ok (finishDeposit
            (preEvents ++ [Event.swapTx sp.amountIn sp.expectedOut,
              Event.planCall postSwapA postSwapB false]) plan params)

/-- The per-position body of the poll loop in `main` (src/index.ts 346-357):
skip when there is no pool snapshot, skip when liquidity is zero, rebalance
only when the out-of-range predicate holds. -/
def processPosition (cfg : Config) (svc : Services) (availableA availableB : ℤ)
    (pos : IndexedPosition) : Except String (List Event) :=
  match pos.pool.head? with
  | none => .ok []
  | some pool =>
    if pos.currentAmount = 0 then .ok []
    else if isOutOfRange pos pool then
      rebalance cfg svc availableA availableB pos
    else .ok []

/-- The working balances of a returned plan: the available balances adjusted
by the swap amounts when a swap was planned (src/index.ts 201-202). -/
def workingBalances (availableA availableB : ℤ) : Option SwapPlan → ℤ × ℤ
  | some sp => (availableA - sp.amountIn, availableB + sp.expectedOut)
  | none => (availableA, availableB)

/-- The plan that governs the final deposit in `rebalance`: the second
(no-swap) planner run on the analytically adjusted balances when the initial
plan contained a swap, the initial plan itself otherwise. -/
def finalPlan (cfg : Config) (svc : Services) (availableA availableB : ℤ)
    (pool : IndexedPool) (p : Plan) : Plan :=
  match p.swapPlan with
  | some sp =>
    capDeposit svc (availableA - sp.amountIn) (availableB + sp.expectedOut)
      (baseParams cfg pool) none
  | none => p

/-- The event trace of an orchestrator result (empty on error). -/
def eventsOf : Except String (List Event) → List Event
  | .ok evs => evs
  | .error _ => []

/-- Whether an orchestrator result is a normal return rather than a thrown
exception. -/
def isOkResult : Except String (List Event) → Bool
  | .ok _ => true
  | .error _ => false

/-- A concrete `FeeTierStep` table for concrete evaluations: tier 1 has
spacing 10, every other tier has no entry. -/
def stepW : ℕ → Option ℤ := fun i => if i = 1 then some 10 else none

/-- A concrete configuration: half-width 10 (the default), safe mode on. -/
def cfgW : Config := { feeTierStep := stepW, tickHalfWidth := 10, swapSafeMode := true }

/-- A concrete token-info record. -/
def tokenW : TokenInfo :=
  { assetType := "0x1::aptos_coin::AptosCoin", faType := none, coinType := none,
    decimals := 8, symbol := "APT" }

/-- A concrete pool snapshot at tick 500 on fee tier 1 (spacing 10). -/
def poolW : IndexedPool :=
  { currentTick := 500, feeTier := 1, token1 := "0xa", token2 := "0xb",
    token1Info := tokenW, token2Info := tokenW }

/-- A concrete position on `poolW` with range [450, 480], out of range at
tick 500. -/
def posW : IndexedPosition :=
  { objectId := "0xpos", poolId := "0xpool", currentAmount := 5,
    position := { tickLower := 450, tickUpper := 480 }, pool := [poolW] }

/-- The same position with an empty pool-snapshot list. -/
def posNoPoolW : IndexedPosition :=
  { objectId := "0xpos", poolId := "0xpool", currentAmount := 5,
    position := { tickLower := 450, tickUpper := 480 }, pool := [] }

/-- A concrete parameter record matching `baseParams cfgW poolW`. -/
def paramsW : PlanParams :=
  { currencyA := "0x1::aptos_coin::AptosCoin", currencyB := "0x1::aptos_coin::AptosCoin",
    feeTierIndex := 1, tickLower := 400, tickUpper := 600, currentTick := 500 }

/-- Concrete services: pairing any A amount needs 100 B, while the reverse
estimate for any B amount is 1000 A. -/
def svcCexW : Services :=
  { estCurrencyBAmountFromA := fun _ _ => 100
    estCurrencyAAmountFromB := fun _ _ => 1000
    estFromAmount := fun _ _ _ _ => { amountIn := 0, amountOut := 0, path := [] } }

/-- Concrete services: any shortfall is quoted at 50 A in, 100 B out. -/
def svcShortW : Services :=
  { estCurrencyBAmountFromA := fun _ _ => 100
    estCurrencyAAmountFromB := fun _ _ => 0
    estFromAmount := fun _ _ _ _ => { amountIn := 50, amountOut := 100, path := [] } }

/-- Concrete services realizing the spec's end-to-end swap scenario: pairing
1000 A needs 500 B, pairing 700 A needs 400 B, the shortfall quote is
300 A in for 500 B out. -/
def svcSwapW : Services :=
  { estCurrencyBAmountFromA := fun _ amt => if amt = 1000 then 500 else if amt = 700 then 400 else 0
    estCurrencyAAmountFromB := fun _ _ => 0
    estFromAmount := fun _ _ _ _ => { amountIn := 300, amountOut := 500, path := ["route"] } }

/-- Concrete services whose ratio estimator always answers 0. -/
def svcZeroW : Services :=
  { estCurrencyBAmountFromA := fun _ _ => 0
    estCurrencyAAmountFromB := fun _ _ => 0
    estFromAmount := fun _ _ _ _ => { amountIn := 0, amountOut := 0, path := [] } }

/-- Concrete services whose ratio estimator always answers 3. -/
def svcThreeW : Services :=
  { estCurrencyBAmountFromA := fun _ _ => 3
    estCurrencyAAmountFromB := fun _ _ => 0
    estFromAmount := fun _ _ _ _ => { amountIn := 0, amountOut := 0, path := [] } }

/-! ## Helper lemmas -/

theorem capDeposit_swapPlan (svc : Services) (wa wb : ℤ) (params : PlanParams)
    (sp : Option SwapPlan) : (capDeposit svc wa wb params sp).swapPlan = sp := by
  simp only [capDeposit]
  split <;> rfl

theorem capDeposit_depositB_le (svc : Services) (wa wb : ℤ) (params : PlanParams)
    (sp : Option SwapPlan) : (capDeposit svc wa wb params sp).depositB ≤ wb := by
  simp only [capDeposit]
  split
  · exact le_refl wb
  · exact le_of_not_lt (by assumption)

theorem capDeposit_depositA_eq (svc : Services) (wa wb : ℤ) (params : PlanParams)
    (sp : Option SwapPlan) (h : svc.estCurrencyBAmountFromA params wa ≤ wb) :
    (capDeposit svc wa wb params sp).depositA = wa := by
  simp only [capDeposit]
  rw [if_neg (not_lt.mpr h)]

theorem planLiquidity_false_eq (svc : Services) (a b : ℤ) (params : PlanParams)
    (safe : Bool) :
    planLiquidity svc a b params false safe = .ok (capDeposit svc a b params none) := by
  simp only [planLiquidity]
  rw [if_neg (by simp)]

/-- Any successfully returned plan is the capped deposit computed at the
working balances it reports. -/
theorem planLiquidity_ok_shape (svc : Services) (a b : ℤ) (params : PlanParams)
    (allowSwap safe : Bool) (p : Plan)
    (h : planLiquidity svc a b params allowSwap safe = .ok p) :
    p = capDeposit svc (workingBalances a b p.swapPlan).1
      (workingBalances a b p.swapPlan).2 params p.swapPlan := by
  simp only [planLiquidity] at h
  split at h
  · split at h
    · simp at h
    · rw [Except.ok.injEq] at h
      subst h
      rw [capDeposit_swapPlan]
      simp [workingBalances]
  · rw [Except.ok.injEq] at h
    subst h
    rw [capDeposit_swapPlan]
    simp [workingBalances]

theorem rebalance_no_pool (cfg : Config) (svc : Services) (a b : ℤ)
    (pos : IndexedPosition) (hpool : pos.pool = []) :
    rebalance cfg svc a b pos = .ok [Event.warnNoPool] := by
  simp [rebalance, hpool]

theorem rebalance_of_noswap (cfg : Config) (svc : Services) (a b : ℤ)
    (pos : IndexedPosition) (pool : IndexedPool) (p : Plan)
    (hpool : pos.pool.head? = some pool)
    (hfirst : planLiquidity svc a b (baseParams cfg pool) true cfg.swapSafeMode = .ok p)
    (hsp : p.swapPlan = none) :
    rebalance cfg svc a b pos =
      .ok (finishDeposit
        (removeEventsOf a b pos.currentAmount ++ [Event.planCall a b true]) p
        (baseParams cfg pool)) := by
  simp only [rebalance, hpool, hfirst, hsp]

theorem rebalance_of_swap (cfg : Config) (svc : Services) (a b : ℤ)
    (pos : IndexedPosition) (pool : IndexedPool) (p : Plan) (sp : SwapPlan)
    (hpool : pos.pool.head? = some pool)
    (hfirst : planLiquidity svc a b (baseParams cfg pool) true cfg.swapSafeMode = .ok p)
    (hsp : p.swapPlan = some sp) :
    rebalance cfg svc a b pos =
      .ok (finishDeposit
        ((removeEventsOf a b pos.currentAmount ++ [Event.planCall a b true]) ++
          [Event.swapTx sp.amountIn sp.expectedOut,
           Event.planCall (a - sp.amountIn) (b + sp.expectedOut) false])
        (capDeposit svc (a - sp.amountIn) (b + sp.expectedOut) (baseParams cfg pool) none)
        (baseParams cfg pool)) := by
  simp only [rebalance, hpool, hfirst, hsp, planLiquidity_false_eq]

/-! ## Claim theorems -/

/-- C3: for every tick, every resolved spacing `s > 0` and every half-width
`h > 0`, `computeTickRange` returns exactly
`(fdiv t s * s - h*s, fdiv t s * s + h*s)`; consequently the lower bound is
strictly below the upper bound, both are multiples of the spacing, and the
snapped anchor `fdiv t s * s` lies within the range.  The function is pure,
so repeated calls at the same arguments agree definitionally. -/
theorem c3_computeTickRange_spec (step : ℕ → Option ℤ) (t : ℤ) (idx : ℕ)
    (h s : ℤ) (hs : (step idx).getD 1 = s) (hspos : 0 < s) (hh : 0 < h) :
    computeTickRange step t idx h = (t.fdiv s * s - h * s, t.fdiv s * s + h * s) ∧
      (computeTickRange step t idx h).1 < (computeTickRange step t idx h).2 ∧
      s ∣ (computeTickRange step t idx h).1 ∧
      s ∣ (computeTickRange step t idx h).2 ∧
      (computeTickRange step t idx h).1 ≤ t.fdiv s * s ∧
      t.fdiv s * s ≤ (computeTickRange step t idx h).2 := by
  have hpos : 0 < h * s := mul_pos hh hspos
  have hne : t.fdiv s * s - h * s ≠ t.fdiv s * s + h * s := by
    intro hc
    have : h * s = 0 := by linarith
    exact (ne_of_gt hpos) this
  have heq : computeTickRange step t idx h =
      (t.fdiv s * s - h * s, t.fdiv s * s + h * s) := by
    simp only [computeTickRange, hs]
    rw [if_neg hne]
  refine ⟨heq, ?_, ?_, ?_, ?_, ?_⟩ <;> rw [heq] <;> dsimp only
  · linarith
  · exact ⟨t.fdiv s - h, by ring⟩
  · exact ⟨t.fdiv s + h, by ring⟩
  · linarith
  · linarith

/-- C3 witness: spacing 10 on fee tier 1, tick 500, half-width 10 gives the
spec's end-to-end range [400, 600]. -/
theorem c3_computeTickRange_spec_witness :
    computeTickRange stepW 500 1 10 = (400, 600) := by
  have h := c3_computeTickRange_spec stepW 500 1 10 10 (by rfl) (by decide) (by decide)
  rw [h.1]
  decide

/-- C7: with half-width 0 and a positive resolved spacing the guard fires,
the result is exactly `(rounded - spacing, rounded + spacing)` and is never
degenerate. -/
theorem c7_computeTickRange_degenerate (step : ℕ → Option ℤ) (t : ℤ) (idx : ℕ)
    (s : ℤ) (hs : (step idx).getD 1 = s) (hspos : 0 < s) :
    computeTickRange step t idx 0 = (t.fdiv s * s - s, t.fdiv s * s + s) ∧
      (computeTickRange step t idx 0).1 ≠ (computeTickRange step t idx 0).2 := by
  have heq : computeTickRange step t idx 0 = (t.fdiv s * s - s, t.fdiv s * s + s) := by
    simp only [computeTickRange, hs]
    rw [if_pos (by ring)]
  refine ⟨heq, ?_⟩
  rw [heq]
  dsimp only
  intro hc
  have : (t.fdiv s * s - s) - (t.fdiv s * s + s) = 0 := by rw [hc]; ring
  have hzero : s = 0 := by linarith
  exact (ne_of_gt hspos) hzero

/-- C7 witness: tick 777 with spacing 10 and half-width 0 yields the widened
range (760, 780), not a degenerate one. -/
theorem c7_computeTickRange_degenerate_witness :
    computeTickRange stepW 777 1 0 = (760, 780) := by
  have h := c7_computeTickRange_degenerate stepW 777 1 10 (by rfl) (by decide)
  rw [h.1]
  decide

/-- C9: a fee-tier index with no `FeeTierStep` entry silently falls back to
spacing 1, so for any non-zero half-width the result is
`(currentTick - halfWidth, currentTick + halfWidth)` snapped at unit
granularity. -/
theorem c9_feeTierStep_fallback (step : ℕ → Option ℤ) (t : ℤ) (idx : ℕ)
    (h : ℤ) (hnone : step idx = none) (hh : h ≠ 0) :
    computeTickRange step t idx h = (t - h, t + h) := by
  simp only [computeTickRange, hnone, Option.getD_none, Int.fdiv_one, mul_one]
  rw [if_neg (by omega)]

/-- C9 witness: fee tier 5 has no entry in `stepW`, so tick 500 with
half-width 10 yields (490, 510). -/
theorem c9_feeTierStep_fallback_witness :
    computeTickRange stepW 500 5 10 = (490, 510) :=
  c9_feeTierStep_fallback stepW 500 5 10 (by rfl) (by decide)

/-- C4: `isOutOfRange` holds exactly when the pool's current tick is at or
below the position's lower tick, or at or above its upper tick; in
particular it is true at either boundary and false strictly inside. -/
theorem c4_isOutOfRange_iff (pos : IndexedPosition) (pool : IndexedPool) :
    isOutOfRange pos pool = true ↔
      pool.currentTick ≤ pos.position.tickLower ∨
        pos.position.tickUpper ≤ pool.currentTick := by
  simp [isOutOfRange]

/-- C4 witness: `posW` (range [450, 480]) is out of range at tick 500. -/
theorem c4_isOutOfRange_iff_witness : isOutOfRange posW poolW = true :=
  (c4_isOutOfRange_iff posW poolW).mpr (Or.inr (by decide))

/-- C8: with `allowSwap = false` the planner never throws and the returned
plan contains no swap plan, for every balance pair and every behaviour of
the external estimator and quote services. -/
theorem c8_planLiquidity_noswap (svc : Services) (a b : ℤ) (params : PlanParams)
    (safe : Bool) :
    planLiquidity svc a b params false safe = .ok (capDeposit svc a b params none) ∧
      (capDeposit svc a b params none).swapPlan = none :=
  ⟨planLiquidity_false_eq svc a b params safe, capDeposit_swapPlan svc a b params none⟩

/-- C1 counterexample: with available balances (10, 5), no swap allowed, an
estimator that pairs any A amount with 100 B and whose reverse estimate for
5 B is 1000 A, the planner returns depositA = 1000 although the working A
balance is only 10 — the claim that depositA never exceeds the working A
balance fails for an arbitrary estimator result. -/
theorem c1_deposit_bounds_counterexample :
    planLiquidity svcCexW 10 5 paramsW false true =
      .ok { swapPlan := none, depositA := 1000, depositB := 5 } ∧
      ¬((1000 : ℤ) ≤ (workingBalances 10 5 none).1) := by
  constructor
  · rfl
  · decide

/-- C1 (amended): for every returned plan, depositB never exceeds the working
B balance; and whenever the capping branch is not taken — i.e. the
re-estimated B requirement for the working A balance already fits within the
working B balance — depositA equals (hence does not exceed) the working A
balance.  In the capping branch depositA is the raw reverse-estimator output
and is not bounded by the working A balance. -/
theorem c1_deposit_bounds (svc : Services) (a b : ℤ) (params : PlanParams)
    (allowSwap safe : Bool) (p : Plan)
    (h : planLiquidity svc a b params allowSwap safe = .ok p) :
    p.depositB ≤ (workingBalances a b p.swapPlan).2 ∧
      (svc.estCurrencyBAmountFromA params (workingBalances a b p.swapPlan).1 ≤
          (workingBalances a b p.swapPlan).2 →
        p.depositA = (workingBalances a b p.swapPlan).1) := by
  have hshape := planLiquidity_ok_shape svc a b params allowSwap safe p h
  constructor
  · conv_lhs => rw [hshape]
    exact capDeposit_depositB_le svc _ _ params p.swapPlan
  · intro hle
    conv_lhs => rw [hshape]
    exact capDeposit_depositA_eq svc _ _ params p.swapPlan hle

/-- C1 witness: with an estimator answering 3 and balances (10, 5) the
planner returns ⟨none, 10, 3⟩ and depositB = 3 is within the working B
balance 5. -/
theorem c1_deposit_bounds_witness :
    (Plan.mk none 10 3).depositB ≤
      (workingBalances 10 5 (Plan.mk none 10 3).swapPlan).2 :=
  (c1_deposit_bounds svcThreeW 10 5 paramsW false true (Plan.mk none 10 3) (by rfl)).1

/-- C2: when a swap is allowed and the estimated B requirement exceeds the
available B balance, the planner fails with the insufficient-balance error
exactly when the quoted amountIn is at least the available A balance; when
the quoted amountIn is strictly below the available A balance it returns a
plan instead of that error. -/
theorem c2_insufficient_balance (svc : Services) (a b : ℤ) (params : PlanParams)
    (safe : Bool) (hReq : b < svc.estCurrencyBAmountFromA params a) :
    (a ≤ (svc.estFromAmount params.currencyA params.currencyB safe
        (svc.estCurrencyBAmountFromA params a - b)).amountIn →
      planLiquidity svc a b params true safe =
        .error "Insufficient currencyA balance to cover swap for rebalancing") ∧
    ((svc.estFromAmount params.currencyA params.currencyB safe
        (svc.estCurrencyBAmountFromA params a - b)).amountIn < a →
      ∃ p, planLiquidity svc a b params true safe = .ok p) := by
  constructor
  · intro hge
    simp only [planLiquidity]
    rw [if_pos ⟨trivial, hReq⟩, if_pos hge]
  · intro hlt
    simp only [planLiquidity]
    rw [if_pos ⟨trivial, hReq⟩, if_neg (not_le.mpr hlt)]
    exact ⟨_, rfl⟩

/-- C2 witness: balances (10, 0), required B 100, quoted amountIn 50 ≥ 10
makes planning fail with the insufficient-balance error. -/
theorem c2_insufficient_balance_witness :
    planLiquidity svcShortW 10 0 paramsW true true =
      .error "Insufficient currencyA balance to cover swap for rebalancing" :=
  (c2_insufficient_balance svcShortW 10 0 paramsW true (by decide)).1 (by decide)

/-- C5: whenever the orchestrator's initial plan contains a swap, the
rebalance run completes without error and its trace contains, directly after
the submitted swap transaction, a second planner call whose balances are the
analytically recomputed `availableA - amountIn` and `availableB + expectedOut`
and whose `allowSwap` flag is `false`. -/
theorem c5_rebalance_second_plan (cfg : Config) (svc : Services) (a b : ℤ)
    (pos : IndexedPosition) (pool : IndexedPool) (p : Plan) (sp : SwapPlan)
    (hpool : pos.pool.head? = some pool)
    (hfirst : planLiquidity svc a b (baseParams cfg pool) true cfg.swapSafeMode = .ok p)
    (hsp : p.swapPlan = some sp) :
    isOkResult (rebalance cfg svc a b pos) = true ∧
      List.IsInfix
        [Event.swapTx sp.amountIn sp.expectedOut,
         Event.planCall (a - sp.amountIn) (b + sp.expectedOut) false]
        (eventsOf (rebalance cfg svc a b pos)) := by
  have hreb := rebalance_of_swap cfg svc a b pos pool p sp hpool hfirst hsp
  rw [hreb]
  refine ⟨rfl, ?_⟩
  simp only [eventsOf]
  unfold finishDeposit
  split
  · exact List.infix_append _ _ _
  · exact List.infix_append _ _ _

/-- C5 witness: the spec's end-to-end swap scenario — balances (1000, 0),
required B 500, quote 300 in / 500 out — produces a swap followed by a
second planner call at (700, 500) with `allowSwap = false`. -/
theorem c5_rebalance_second_plan_witness :
    isOkResult (rebalance cfgW svcSwapW 1000 0 posW) = true ∧
      List.IsInfix [Event.swapTx 300 500, Event.planCall 700 500 false]
        (eventsOf (rebalance cfgW svcSwapW 1000 0 posW)) :=
  c5_rebalance_second_plan cfgW svcSwapW 1000 0 posW poolW
    { swapPlan := some { amountIn := 300, expectedOut := 500, path := ["route"] },
      depositA := 700, depositB := 400 }
    { amountIn := 300, expectedOut := 500, path := ["route"] }
    (by rfl) (by rfl) (by rfl)

/-- C6: whenever the plan governing the final deposit has a zero amount on
either side, the orchestrator returns normally (no error), its trace records
the logged skip, and no add-liquidity transaction is ever submitted. -/
theorem c6_rebalance_zero_skip (cfg : Config) (svc : Services) (a b : ℤ)
    (pos : IndexedPosition) (pool : IndexedPool) (p : Plan)
    (hpool : pos.pool.head? = some pool)
    (hfirst : planLiquidity svc a b (baseParams cfg pool) true cfg.swapSafeMode = .ok p)
    (hzero : (finalPlan cfg svc a b pool p).depositA = 0 ∨
      (finalPlan cfg svc a b pool p).depositB = 0) :
    isOkResult (rebalance cfg svc a b pos) = true ∧
      Event.skipDeposit (finalPlan cfg svc a b pool p).depositA
        (finalPlan cfg svc a b pool p).depositB ∈
        eventsOf (rebalance cfg svc a b pos) ∧
      ∀ x y l u, Event.addLiquidity x y l u ∉ eventsOf (rebalance cfg svc a b pos) := by
  cases hsp : p.swapPlan with
  | none =>
    have hfp : finalPlan cfg svc a b pool p = p := by
      simp [finalPlan, hsp]
    rw [hfp] at hzero ⊢
    have hreb := rebalance_of_noswap cfg svc a b pos pool p hpool hfirst hsp
    rw [hreb]
    simp only [eventsOf, isOkResult]
    refine ⟨trivial, ?_, ?_⟩
    · unfold finishDeposit
      rw [if_pos hzero]
      simp
    · intro x y l u
      unfold finishDeposit
      rw [if_pos hzero]
      unfold removeEventsOf
      split <;> simp
  | some sp =>
    have hfp : finalPlan cfg svc a b pool p =
        capDeposit svc (a - sp.amountIn) (b + sp.expectedOut) (baseParams cfg pool) none := by
      simp [finalPlan, hsp]
    rw [hfp] at hzero ⊢
    have hreb := rebalance_of_swap cfg svc a b pos pool p sp hpool hfirst hsp
    rw [hreb]
    simp only [eventsOf, isOkResult]
    refine ⟨trivial, ?_, ?_⟩
    · unfold finishDeposit
      rw [if_pos hzero]
      simp
    · intro x y l u
      unfold finishDeposit
      rw [if_pos hzero]
      unfold removeEventsOf
      split <;> simp

/-- C6 witness: with an estimator always answering 0, the final plan is
⟨none, 10, 0⟩; the orchestrator returns normally, logs the skip and submits
no add-liquidity transaction. -/
theorem c6_rebalance_zero_skip_witness :
    isOkResult (rebalance cfgW svcZeroW 10 5 posW) = true ∧
      Event.skipDeposit 10 0 ∈ eventsOf (rebalance cfgW svcZeroW 10 5 posW) ∧
      Event.addLiquidity 10 0 400 600 ∉ eventsOf (rebalance cfgW svcZeroW 10 5 posW) := by
  have h := c6_rebalance_zero_skip cfgW svcZeroW 10 5 posW poolW
    { swapPlan := none, depositA := 10, depositB := 0 }
    (by rfl) (by rfl) (Or.inr (by rfl))
  exact ⟨h.1, h.2.1, h.2.2 10 0 400 600⟩

/-- C10: a position whose embedded pool-snapshot list is empty is skipped by
the poll-loop body before the out-of-range predicate is evaluated (no action,
no error), and a direct `rebalance` call on it only logs the warning and
submits no transaction. -/
theorem c10_empty_pool_skip (cfg : Config) (svc : Services) (a b : ℤ)
    (pos : IndexedPosition) (hpool : pos.pool = []) :
    processPosition cfg svc a b pos = .ok [] ∧
      rebalance cfg svc a b pos = .ok [Event.warnNoPool] := by
  constructor
  · simp [processPosition, hpool]
  · exact rebalance_no_pool cfg svc a b pos hpool

/-- C10 witness: the concrete position with an empty pool list is skipped by
the loop body, and rebalance on it yields only the warning event. -/
theorem c10_empty_pool_skip_witness :
    processPosition cfgW svcZeroW 1 1 posNoPoolW = .ok [] ∧
      rebalance cfgW svcZeroW 1 1 posNoPoolW = .ok [Event.warnNoPool] :=
  c10_empty_pool_skip cfgW svcZeroW 1 1 posNoPoolW (by rfl)

end HyperionRebalancer
